import Mathlib

/-!
Shallow embedding of `amaranth/sim/_pycoro.py` (`PyCoroProcess`), the
process driver of the simulator: it resumes a suspended user computation,
interprets the commands it yields, manages trigger registrations with the
event kernel, and reports whether an immediate re-run is needed.

External collaborators (the command classes of `sim/core.py`, the event
kernel, the evaluator of `_pyeval.py`) are not part of the sources; they are
modelled from the spec where a definition is required, and kept abstract
(type and function parameters) everywhere else.

Python values are modelled as follows: signals by their identity (`Nat`),
evaluator values as `Int`, expressions as opaque indices (`Nat`), Python
floats as exact rationals (exact at every concrete input used below, where
the IEEE double products involved are exactly representable), exceptions as
a small inductive carrying the message head (the `format` interpolation of
`command!r` and `src_loc()` into messages is elided).
-/

/-- Signals are identified by Python object identity, modelled as `Nat`. -/
abbrev Signal := Nat

/-- Values produced by the evaluator (`eval_value`), Python integers. -/
abbrev Val := Int

/-- Expressions (`Value` AST nodes) are opaque to the driver. -/
abbrev Expr := Nat

/-- Exceptions that can travel through the driver.  `nameError` is the
`NameError` of the nonexistent-domain check, `typeError` the `TypeError` of
the usage checks; `evalError` stands for an exception raised by the
evaluator, `userError` for one raised inside the user computation. -/
inductive Exn where
  | nameError (msg : String)
  | typeError (msg : String)
  | evalError (code : Nat)
  | userError (code : Nat)
  deriving DecidableEq

/-- Clock edge polarity of a domain (`clk_edge == "pos"` or `"neg"`). -/
inductive ClkEdge where
  | pos
  | neg
  deriving DecidableEq

/-- The fields of `ClockDomain` that the driver reads: clock signal, edge
polarity, optional reset signal, and whether the reset is asynchronous. -/
structure ClockDomain where
  clk : Signal
  clk_edge : ClkEdge
  rst : Option Signal
  async_reset : Bool
  deriving DecidableEq

/-- A domain argument of `Tick`: either a concrete `ClockDomain` object or a
name to be looked up in the process's domain bindings. -/
inductive DomainRef where
  | concrete (cd : ClockDomain)
  | named (nm : String)
  deriving DecidableEq

/-- Modelled from the spec: the command classes live in `sim/core.py`, which
is absent from the sources.  The spec describes them as a closed tagged
variant `ReadValue(expr) | Assign(lhs, rhs) | Tick(domain) | Settle |
Delay(interval) | Passive | Active`, with `Settle` and `Delay` distinct
variants.  `readValue` stands for yielding a `Value` (a `ValueCastable` is
cast to a `Value` first, which this constructor absorbs); `delay` carries
the interval in seconds, a Python float modelled as a rational; `other`
stands for any yielded object outside the algebra (the `else` branch of the
dispatch). -/
inductive Command where
  | readValue (expr : Expr)
  | assign (lhs rhs : Expr)
  | tick (domain : DomainRef)
  | settle
  | delay (interval : Option Rat)
  | passive
  | active
  | other (tag : Nat)
  deriving DecidableEq

/-- Modelled from the spec: the event kernel's per-process registry (the
`state.add_trigger` / `state.remove_trigger` / `state.wait_interval` side of
the interface, not in the sources).  `triggers` is the list of live trigger
registrations of this process, newest first; `remove_trigger` drops every
registration on the given signal; `waits` logs the `wait_interval` requests,
newest first (`none` inside an entry means an indefinite wait). -/
structure KernelState where
  triggers : List (Signal × Option Val)
  waits : List (Option Int)
  deriving DecidableEq

def KernelState.add_trigger (k : KernelState) (signal : Signal)
    (trigger : Option Val) : KernelState :=
  { k with triggers := (signal, trigger) :: k.triggers }

def KernelState.remove_trigger (k : KernelState) (signal : Signal) :
    KernelState :=
  { k with triggers := k.triggers.filter (fun t => t.1 != signal) }

def KernelState.wait_interval (k : KernelState) (interval : Option Int) :
    KernelState :=
  { k with waits := interval :: k.waits }

/-- `SignalSet.add`: a `SignalSet` holds each signal once, so insertion is
skipped when the signal is already present. -/
def SignalSet.add (s : List Signal) (x : Signal) : List Signal :=
  if x ∈ s then s else x :: s

/-- The argument of one resumption of the user computation: either
`coroutine.send(response)` or `coroutine.throw(exception)`. -/
inductive ResumeArg where
  | send (response : Option Val)
  | throw (e : Exn)
  deriving DecidableEq

/-- The outcome of one resumption: the computation yields a command (Python
allows yielding `None`, hence the `Option`), finishes (`StopIteration`), or
raises an exception that propagates out of the resumption. -/
inductive StepResult (σ : Type) where
  | yielded (cmd : Option Command) (s : σ)
  | stopIteration
  | raised (e : Exn)
  deriving DecidableEq

/-- The evaluator interface of `_pyeval.py` (not itself specified): reading
an expression and committing an assignment against simulation state, either
of which may raise. -/
structure Evaluator (Sim : Type) where
  eval_value : Sim → Expr → Except Exn Val
  eval_assign : Sim → Expr → Val → Except Exn Sim

/-- The mutable fields of `PyCoroProcess`.  The coroutine object is split
into its current state (threaded through the loop) and the `coroutine`
field, which only records whether a computation is still present; the step
function of the computation is a separate parameter of `run`.  The
`on_command` observation hook is omitted: it may not alter the command. -/
structure Proc (σ : Type) where
  coroutine : Option σ
  runnable : Bool
  passive : Bool
  testbench : Bool
  default_cmd : Option Command
  domains : List (String × ClockDomain)
  waits_on : List Signal
  deriving DecidableEq

/-- Python `int()` applied to a number: truncation toward zero
(`Int.tdiv` is the truncating division). -/
def pyInt (q : Rat) : Int :=
  Int.tdiv q.num (q.den : Int)

/-- Modelled from the spec: the rounding the spec prescribes for `Delay`,
`round(interval * 1e15)` — Python's `round`, which rounds half to even.
Computed on the numerator and denominator: `f` is the floor, `r2` twice the
numerator of the fractional part over `den`, so the half-point is `r2 =
den`. -/
def pyRound (q : Rat) : Int :=
  let f := Int.fdiv q.num (q.den : Int)
  let r2 := 2 * (q.num - f * (q.den : Int))
  if r2 < (q.den : Int) then f
  else if r2 > (q.den : Int) then f + 1
  else if f % 2 = 0 then f else f + 1

/-- `PyCoroProcess.add_trigger`: register with the kernel and record the
signal in `waits_on`. -/
def Proc.add_trigger {σ : Type} (p : Proc σ) (k : KernelState)
    (signal : Signal) (trigger : Option Val) : Proc σ × KernelState :=
  ({ p with waits_on := SignalSet.add p.waits_on signal },
   k.add_trigger signal trigger)

/-- `PyCoroProcess.clear_triggers`: unregister every watched signal from the
kernel and empty `waits_on`. -/
def Proc.clear_triggers {σ : Type} (p : Proc σ) (k : KernelState) :
    Proc σ × KernelState :=
  ({ p with waits_on := [] },
   p.waits_on.foldl (fun k0 s => k0.remove_trigger s) k)

/-- Outcome of interpreting one command (the body of the `try:` block at the
bottom of the loop): `ret` is a `return` from `run` (`rerun = true` for
`return True`), `cont` continues the loop with the given response, `err`
continues the loop with a captured exception to be thrown into the
computation on the next iteration (the `except Exception` handler). -/
inductive InterpOut (σ Sim : Type) where
  | ret (rerun : Bool) (p : Proc σ) (sim : Sim) (k : KernelState)
  | cont (response : Option Val) (p : Proc σ) (sim : Sim) (k : KernelState)
  | err (e : Exn) (p : Proc σ) (sim : Sim) (k : KernelState)
  deriving DecidableEq

/-- The error messages of the usage checks (message heads; interpolation of
the command and the source location is elided). -/
def tbErr : Exn := Exn.typeError "is not allowed in testbenches"

def defaultErr : Exn :=
  Exn.typeError "Received default command from process that was added with add_process()"

def unsupportedErr : Exn := Exn.typeError "Received unsupported command"

def domainErr : Exn :=
  Exn.nameError "refers to a nonexistent domain"

/-- Resolution of the domain argument of `Tick`: a concrete `ClockDomain` is
used directly; a name is looked up in the process's domain bindings
(`self.domains`, modelled as an association list); `none` is the
nonexistent-domain case. -/
def resolveDomain (domains : List (String × ClockDomain)) (dref : DomainRef) :
    Option ClockDomain :=
  match dref with
  | DomainRef.concrete cd => some cd
  | DomainRef.named nm =>
    (domains.find? (fun (b : String × ClockDomain) => b.1 == nm)).map Prod.snd

/-- Interpretation of one (default-substituted) command, mirroring the
`if`/`elif` chain of `PyCoroProcess.run`.  The Python chain tests, in
order: `Value`, `Assign`, `Tick`, the testbench check on `None`/`Settle`,
`Settle`, `Delay`, `Passive`, `Active`, `None`, else.  The constructors of
`Command` are mutually exclusive, so the order only matters where branches
overlap: the testbench check is folded into the `settle` and `none` cases,
which it precedes in the source. -/
def interp {σ Sim : Type} (ev : Evaluator Sim) (command : Option Command)
    (p : Proc σ) (sim : Sim) (k : KernelState) : InterpOut σ Sim :=
  match command with
  | some (Command.readValue e) =>
    match ev.eval_value sim e with
    | Except.ok v => InterpOut.cont (some v) p sim k
    | Except.error exn => InterpOut.err exn p sim k
  | some (Command.assign lhs rhs) =>
    match ev.eval_value sim rhs with
    | Except.error exn => InterpOut.err exn p sim k
    | Except.ok v =>
      match ev.eval_assign sim lhs v with
      | Except.error exn => InterpOut.err exn p sim k
      | Except.ok sim' =>
        if p.testbench then InterpOut.ret true p sim' k
        else InterpOut.cont none p sim' k
  | some (Command.tick dref) =>
    match resolveDomain p.domains dref with
    | none => InterpOut.err domainErr p sim k
    | some domain =>
      let pk1 := p.add_trigger k domain.clk
        (some (if domain.clk_edge = ClkEdge.pos then 1 else 0))
      let pk2 :=
        match domain.rst with
        | some rst =>
          if domain.async_reset then pk1.1.add_trigger pk1.2 rst (some 1)
          else pk1
        | none => pk1
      InterpOut.ret false pk2.1 sim pk2.2
  | some Command.settle =>
    if p.testbench then InterpOut.err tbErr p sim k
    else InterpOut.ret false p sim (k.wait_interval none)
  | some (Command.delay interval) =>
    InterpOut.ret false p sim
      (k.wait_interval (interval.map (fun q => pyInt (q * 10 ^ 15))))
  | some Command.passive =>
    InterpOut.cont none { p with passive := true } sim k
  | some Command.active =>
    InterpOut.cont none { p with passive := false } sim k
  | none =>
    if p.testbench then InterpOut.err tbErr p sim k
    else InterpOut.err defaultErr p sim k
  | some (Command.other _) => InterpOut.err unsupportedErr p sim k

/-- The result of a `run` call: `rerun` is Python `return True`, `noRerun`
covers `return False` and the bare `return` of the no-computation case (both
falsy to the kernel), `fatal e` is an exception propagating out of `run`,
and `outOfFuel` marks a loop that did not reach a return within the given
fuel (the Python loop has no such bound; every theorem below supplies enough
fuel for the runs it describes). -/
inductive RunResult where
  | rerun
  | noRerun
  | fatal (e : Exn)
  | outOfFuel
  deriving DecidableEq

/-- The state after a `run` call: its result, the process, the simulation
state, and the kernel state. -/
structure RunOut (σ Sim : Type) where
  result : RunResult
  proc : Proc σ
  sim : Sim
  kernel : KernelState
  deriving DecidableEq

/-- The default-command substitution at the top of the loop body: `if
command is None: command = self.default_cmd` (which may itself leave the
command absent). -/
def subst_default {σ : Type} (p : Proc σ) (cmd0 : Option Command) :
    Option Command :=
  match cmd0 with
  | none => p.default_cmd
  | some c => some c

/-- The `while True:` loop of `PyCoroProcess.run`, with explicit fuel.
`s` is the current coroutine state; `response`/`exception` are the pending
resume value and pending captured exception.  Each iteration resumes the
computation (`send` when no exception is pending, `throw` otherwise),
handles `StopIteration` (terminate: clear the computation, force passive)
and escaping exceptions (propagate out of `run`), substitutes the default
command for a `None` yield, resets `response`/`exception`, and interprets
the command. -/
def runLoop {σ Sim : Type} (ev : Evaluator Sim)
    (stepFn : σ → ResumeArg → StepResult σ) :
    Nat → σ → Option Val → Option Exn → Proc σ → Sim → KernelState →
    RunOut σ Sim
  | 0, s, _, _, p, sim, k =>
    ⟨RunResult.outOfFuel, { p with coroutine := some s }, sim, k⟩
  | fuel + 1, s, response, exception, p, sim, k =>
    match (match exception with
           | none => stepFn s (ResumeArg.send response)
           | some e => stepFn s (ResumeArg.throw e)) with
    | StepResult.stopIteration =>
      ⟨RunResult.noRerun, { p with passive := true, coroutine := none },
       sim, k⟩
    | StepResult.raised e =>
      ⟨RunResult.fatal e, { p with coroutine := some s }, sim, k⟩
    | StepResult.yielded cmd0 s' =>
      match interp ev (subst_default p cmd0) p sim k with
      | InterpOut.ret rr p' sim' k' =>
        ⟨if rr then RunResult.rerun else RunResult.noRerun,
         { p' with coroutine := some s' }, sim', k'⟩
      | InterpOut.cont r p' sim' k' =>
        runLoop ev stepFn fuel s' r none p' sim' k'
      | InterpOut.err e p' sim' k' =>
        runLoop ev stepFn fuel s' none (some e) p' sim' k'

/-- `PyCoroProcess.run`: a no-op returning falsy when the computation is
gone, otherwise clear all triggers and enter the loop with no pending
response or exception. -/
def run {σ Sim : Type} (ev : Evaluator Sim)
    (stepFn : σ → ResumeArg → StepResult σ) (fuel : Nat) (p : Proc σ)
    (sim : Sim) (k : KernelState) : RunOut σ Sim :=
  match p.coroutine with
  | none => ⟨RunResult.noRerun, p, sim, k⟩
  | some s =>
    let pk := p.clear_triggers k
    runLoop ev stepFn fuel s none none pk.1 sim pk.2

/-- The signal-set agreement between `waits_on` and the kernel's live
registrations for this process, stated with bounded (decidable)
quantifiers. -/
def trigInv {σ : Type} (p : Proc σ) (k : KernelState) : Prop :=
  (∀ s ∈ p.waits_on, s ∈ k.triggers.map Prod.fst) ∧
  (∀ t ∈ k.triggers, t.1 ∈ p.waits_on)

instance {σ : Type} (p : Proc σ) (k : KernelState) : Decidable (trigInv p k) := by
  unfold trigInv
  infer_instance

/-- The trigger registrations the `Tick` branch creates, starting from an
empty registry: the clock trigger (1 on a positive edge, 0 on a negative
edge), preceded by a reset trigger expecting 1 when the domain has an
asynchronous reset signal. -/
def tickTrigList (cd : ClockDomain) : List (Signal × Option Val) :=
  let base : List (Signal × Option Val) :=
    [(cd.clk, some (if cd.clk_edge = ClkEdge.pos then 1 else 0))]
  match cd.rst with
  | some rst => if cd.async_reset then (rst, some 1) :: base else base
  | none => base

/-- The `waits_on` contents the `Tick` branch creates from an empty set. -/
def tickWaits (cd : ClockDomain) : List Signal :=
  let base := SignalSet.add [] cd.clk
  match cd.rst with
  | some rst => if cd.async_reset then SignalSet.add base rst else base
  | none => base

/-- The per-command trigger effect starting from an empty watch set and an
empty registry: every branch leaves both empty, except the `Tick` branch,
which returns (no rerun) with exactly its clock/reset triggers installed. -/
def trigShape {σ Sim : Type} (o : InterpOut σ Sim) : Prop :=
  match o with
  | InterpOut.ret rr p' _ k' =>
    (p'.waits_on = [] ∧ k'.triggers = []) ∨
    (rr = false ∧ ∃ cd, p'.waits_on = tickWaits cd ∧
      k'.triggers = tickTrigList cd)
  | InterpOut.cont _ p' _ k' => p'.waits_on = [] ∧ k'.triggers = []
  | InterpOut.err _ p' _ k' => p'.waits_on = [] ∧ k'.triggers = []

/-- A small concrete evaluator over `Sim := Int`, used to instantiate the
theorems below at computable inputs: reading expression `e` in state `sim`
yields `sim + e`, committing value `v` to `l` moves the state to
`sim + l + v`. -/
def evDemo : Evaluator Int :=
  ⟨fun sim e => Except.ok (sim + (e : Int)),
   fun sim l v => Except.ok (sim + (l : Int) + v)⟩

def kEmpty : KernelState := ⟨[], []⟩

/-- A freshly constructed testbench process (coroutine state `0`). -/
def procTB : Proc Nat := ⟨some 0, true, false, true, none, [], []⟩

/-- A freshly constructed non-testbench process. -/
def procDes : Proc Nat := ⟨some 0, true, false, false, none, [], []⟩

/-- A demonstration clock domain: positive edge, asynchronous reset. -/
def cdDemo : ClockDomain := ⟨3, ClkEdge.pos, some 4, true⟩

/-- A non-testbench process with a domain binding and a stale watched
signal `9` (matched by a live kernel registration in `kStale`). -/
def pStale : Proc Nat :=
  ⟨some 0, true, false, false, none, [("sync", cdDemo)], [9]⟩

def kStale : KernelState := ⟨[(9, some 1)], []⟩

/-- Demonstration computations, written as step functions on `Nat`
states. -/
def stepAssign : Nat → ResumeArg → StepResult Nat := fun s _ =>
  match s with
  | 0 => StepResult.yielded (some (Command.assign 5 7)) 1
  | _ => StepResult.stopIteration

def stepTickC : Nat → ResumeArg → StepResult Nat := fun s _ =>
  match s with
  | 0 => StepResult.yielded (some (Command.tick (DomainRef.concrete cdDemo))) 1
  | _ => StepResult.stopIteration

def stepTickN : Nat → ResumeArg → StepResult Nat := fun s _ =>
  match s with
  | 0 => StepResult.yielded (some (Command.tick (DomainRef.named "sync"))) 1
  | _ => StepResult.stopIteration

def stepUnsupported : Nat → ResumeArg → StepResult Nat := fun s a =>
  match s, a with
  | 0, ResumeArg.send _ => StepResult.yielded (some (Command.other 3)) 1
  | 1, ResumeArg.throw _ => StepResult.raised (Exn.userError 7)
  | _, _ => StepResult.stopIteration

def stepSettle : Nat → ResumeArg → StepResult Nat := fun s _ =>
  match s with
  | 0 => StepResult.yielded (some Command.settle) 1
  | _ => StepResult.stopIteration

def stepStop : Nat → ResumeArg → StepResult Nat := fun _ _ =>
  StepResult.stopIteration

def stepDelayNone : Nat → ResumeArg → StepResult Nat := fun s _ =>
  match s with
  | 0 => StepResult.yielded (some (Command.delay none)) 1
  | _ => StepResult.stopIteration

def stepDelayFs : Nat → ResumeArg → StepResult Nat := fun s _ =>
  match s with
  | 0 => StepResult.yielded (some (Command.delay (some (mkRat 1 (10 ^ 15))))) 1
  | _ => StepResult.stopIteration

def stepRead : Nat → ResumeArg → StepResult Nat := fun s _ =>
  match s with
  | 0 => StepResult.yielded (some (Command.readValue 7)) 1
  | _ => StepResult.stopIteration

def stepYieldNone : Nat → ResumeArg → StepResult Nat := fun s _ =>
  match s with
  | 0 => StepResult.yielded none 1
  | _ => StepResult.stopIteration

/-- A non-testbench process whose only domain binding is `"sync"`. -/
def pSync : Proc Nat :=
  ⟨some 0, true, false, false, none, [("sync", cdDemo)], []⟩

/-- An already-terminated process (computation cleared). -/
def pDead : Proc Nat := ⟨none, true, true, false, none, [], []⟩

theorem foldl_remove_trigger_triggers (l : List Signal) (k : KernelState) :
    (l.foldl (fun k0 s => k0.remove_trigger s) k).triggers =
      k.triggers.filter (fun t => decide (t.1 ∉ l)) := by
  induction l generalizing k with
  | nil => simp
  | cons a l ih =>
    rw [List.foldl_cons, ih]
    simp only [KernelState.remove_trigger, List.filter_filter]
    congr 1
    funext t
    by_cases h1 : t.1 = a <;> by_cases h2 : t.1 ∈ l <;> simp [h1, h2]

theorem clear_triggers_of_trigInv {σ : Type} (p : Proc σ) (k : KernelState)
    (hinv : trigInv p k) :
    (p.clear_triggers k).1.waits_on = [] ∧
    (p.clear_triggers k).2.triggers = [] := by
  refine ⟨rfl, ?_⟩
  show (p.waits_on.foldl (fun k0 s => k0.remove_trigger s) k).triggers = []
  rw [foldl_remove_trigger_triggers]
  rw [List.filter_eq_nil_iff]
  intro t ht
  have := hinv.2 t ht
  simp [this]

theorem tickWaits_mem (cd : ClockDomain) (s : Signal) :
    s ∈ tickWaits cd ↔ s ∈ (tickTrigList cd).map Prod.fst := by
  unfold tickWaits tickTrigList SignalSet.add
  rcases cd.rst with _ | rst
  · simp
  · by_cases ha : cd.async_reset <;> by_cases he : rst = cd.clk <;>
      simp [ha, he]

theorem interp_trigShape {σ Sim : Type} (ev : Evaluator Sim)
    (c : Option Command) (p : Proc σ) (sim : Sim) (k : KernelState)
    (hw : p.waits_on = []) (hk : k.triggers = []) :
    trigShape (interp ev c p sim k) := by
  rcases c with _ | c
  · by_cases h : p.testbench <;> simp [interp, trigShape, h, hw, hk]
  · cases c with
    | readValue e =>
      rcases hv : ev.eval_value sim e with e' | v <;>
        simp [interp, trigShape, hv, hw, hk]
    | assign lhs rhs =>
      rcases hv : ev.eval_value sim rhs with e' | v
      · simp [interp, trigShape, hv, hw, hk]
      · rcases ha : ev.eval_assign sim lhs v with e' | sim' <;>
          by_cases htb : p.testbench <;>
          simp [interp, trigShape, hv, ha, htb, hw, hk]
    | tick dref =>
      rcases hres : resolveDomain p.domains dref with _ | cd
      · simp [interp, trigShape, hres, hw, hk]
      · rcases hrst : cd.rst with _ | rst <;> by_cases ha : cd.async_reset
        all_goals
          simp only [interp, hres, hrst, ha, trigShape, Proc.add_trigger,
            KernelState.add_trigger, if_true, if_false]
        all_goals
          exact Or.inr ⟨by simp, cd, by
            simp [tickWaits, tickTrigList, hrst, ha, hw, hk,
              Proc.add_trigger, KernelState.add_trigger]⟩
    | settle =>
      by_cases htb : p.testbench <;>
        simp [interp, trigShape, htb, hw, hk, KernelState.wait_interval]
    | delay i =>
      simp [interp, trigShape, hw, hk, KernelState.wait_interval]
    | passive => simp [interp, trigShape, hw, hk]
    | active => simp [interp, trigShape, hw, hk]
    | other t => simp [interp, trigShape, hw, hk]

/-- Unfolding of one loop iteration (the equation of `runLoop` at successor
fuel), used to step the loop in the proofs below. -/
theorem runLoop_succ {σ Sim : Type} (ev : Evaluator Sim)
    (stepFn : σ → ResumeArg → StepResult σ) (fuel : Nat) (s : σ)
    (response : Option Val) (exception : Option Exn) (p : Proc σ)
    (sim : Sim) (k : KernelState) :
    runLoop ev stepFn (fuel + 1) s response exception p sim k =
      match (match exception with
             | none => stepFn s (ResumeArg.send response)
             | some e => stepFn s (ResumeArg.throw e)) with
      | StepResult.stopIteration =>
        ⟨RunResult.noRerun, { p with passive := true, coroutine := none },
         sim, k⟩
      | StepResult.raised e =>
        ⟨RunResult.fatal e, { p with coroutine := some s }, sim, k⟩
      | StepResult.yielded cmd0 s' =>
        match interp ev (subst_default p cmd0) p sim k with
        | InterpOut.ret rr p' sim' k' =>
          ⟨if rr then RunResult.rerun else RunResult.noRerun,
           { p' with coroutine := some s' }, sim', k'⟩
        | InterpOut.cont r p' sim' k' =>
          runLoop ev stepFn fuel s' r none p' sim' k'
        | InterpOut.err e p' sim' k' =>
          runLoop ev stepFn fuel s' none (some e) p' sim' k' := rfl

/-- The loop invariant behind the trigger bookkeeping: started with an empty
watch set and an empty registry, the loop either finishes (or runs out of
fuel) with both still empty, or returns "no rerun needed" from a `Tick`
suspension with exactly that tick's triggers installed. -/
theorem runLoop_trigShape {σ Sim : Type} (ev : Evaluator Sim)
    (stepFn : σ → ResumeArg → StepResult σ) (fuel : Nat) (s : σ)
    (r : Option Val) (exc : Option Exn) (p : Proc σ) (sim : Sim)
    (k : KernelState) (hw : p.waits_on = []) (hk : k.triggers = []) :
    ((runLoop ev stepFn fuel s r exc p sim k).proc.waits_on = [] ∧
      (runLoop ev stepFn fuel s r exc p sim k).kernel.triggers = []) ∨
    ((runLoop ev stepFn fuel s r exc p sim k).result = RunResult.noRerun ∧
      ∃ cd, (runLoop ev stepFn fuel s r exc p sim k).proc.waits_on =
          tickWaits cd ∧
        (runLoop ev stepFn fuel s r exc p sim k).kernel.triggers =
          tickTrigList cd) := by
  induction fuel generalizing s r exc p sim k with
  | zero => exact Or.inl ⟨hw, hk⟩
  | succ fuel ih =>
    rcases hstep : (match exc with
                    | none => stepFn s (ResumeArg.send r)
                    | some e => stepFn s (ResumeArg.throw e)) with
      ⟨cmd0, s'⟩ | _ | ⟨e⟩
    · have hgoal : runLoop ev stepFn (fuel + 1) s r exc p sim k =
          match interp ev (subst_default p cmd0) p sim k with
          | InterpOut.ret rr p' sim' k' =>
            ⟨if rr then RunResult.rerun else RunResult.noRerun,
             { p' with coroutine := some s' }, sim', k'⟩
          | InterpOut.cont r' p' sim' k' =>
            runLoop ev stepFn fuel s' r' none p' sim' k'
          | InterpOut.err e' p' sim' k' =>
            runLoop ev stepFn fuel s' none (some e') p' sim' k' := by
        rw [runLoop_succ, hstep]
      rw [hgoal]
      have hshape := interp_trigShape ev (subst_default p cmd0) p sim k hw hk
      rcases hint : interp ev (subst_default p cmd0) p sim k with
        ⟨rr, p', sim', k'⟩ | ⟨r', p', sim', k'⟩ | ⟨e', p', sim', k'⟩
      · rw [hint] at hshape
        simp only [trigShape] at hshape
        rcases hshape with ⟨h1, h2⟩ | ⟨hrr, cd, h1, h2⟩
        · exact Or.inl ⟨h1, h2⟩
        · subst hrr
          exact Or.inr ⟨by simp, cd, h1, h2⟩
      · rw [hint] at hshape
        simp only [trigShape] at hshape
        exact ih s' r' none p' sim' k' hshape.1 hshape.2
      · rw [hint] at hshape
        simp only [trigShape] at hshape
        exact ih s' none (some e') p' sim' k' hshape.1 hshape.2
    · have hgoal : runLoop ev stepFn (fuel + 1) s r exc p sim k =
          ⟨RunResult.noRerun,
           { p with passive := true, coroutine := none }, sim, k⟩ := by
        rw [runLoop_succ, hstep]
      rw [hgoal]
      exact Or.inl ⟨hw, hk⟩
    · have hgoal : runLoop ev stepFn (fuel + 1) s r exc p sim k =
          ⟨RunResult.fatal e, { p with coroutine := some s }, sim, k⟩ := by
        rw [runLoop_succ, hstep]
      rw [hgoal]
      exact Or.inl ⟨hw, hk⟩

theorem trigInv_of_empty {σ : Type} (p : Proc σ) (k : KernelState)
    (hw : p.waits_on = []) (hk : k.triggers = []) : trigInv p k := by
  constructor
  · intro s hs
    rw [hw] at hs
    cases hs
  · intro t ht
    rw [hk] at ht
    cases ht

theorem trigInv_of_tick {σ : Type} (p : Proc σ) (k : KernelState)
    (cd : ClockDomain) (hw : p.waits_on = tickWaits cd)
    (hk : k.triggers = tickTrigList cd) : trigInv p k := by
  constructor
  · intro s hs
    rw [hk]
    rw [hw] at hs
    exact (tickWaits_mem cd s).1 hs
  · intro t ht
    rw [hw]
    rw [hk] at ht
    exact (tickWaits_mem cd t.1).2 (List.mem_map_of_mem Prod.fst ht)

/-- C1: for every process and every `run()` call, triggers from a prior
suspension are all unregistered at the start of the run (`clear_triggers`
leaves the watch set and the kernel registry empty); after the call the
`waits_on` set again agrees exactly with the kernel's live registrations
for the process; and whenever the call actually resumed a computation, the
registrations left behind are either none at all (termination, a fatal
error, a `Settle`/`Delay` wait, a testbench-`Assign` rerun — all register
nothing) or exactly the clock/reset triggers installed by the `Tick`
suspension the run ended on, which is the most recent suspending command of
the call since the `Tick` branch returns immediately after registering. -/
theorem C1_trigger_bookkeeping {σ Sim : Type} (ev : Evaluator Sim)
    (stepFn : σ → ResumeArg → StepResult σ) (fuel : Nat) (p : Proc σ)
    (sim : Sim) (k : KernelState) (hinv : trigInv p k) :
    ((p.clear_triggers k).1.waits_on = [] ∧
      (p.clear_triggers k).2.triggers = []) ∧
    trigInv (run ev stepFn fuel p sim k).proc
      (run ev stepFn fuel p sim k).kernel ∧
    (p.coroutine.isSome = true →
      ((run ev stepFn fuel p sim k).proc.waits_on = [] ∧
        (run ev stepFn fuel p sim k).kernel.triggers = []) ∨
      ((run ev stepFn fuel p sim k).result = RunResult.noRerun ∧
        ∃ cd, (run ev stepFn fuel p sim k).proc.waits_on = tickWaits cd ∧
          (run ev stepFn fuel p sim k).kernel.triggers = tickTrigList cd)) := by
  have hclear := clear_triggers_of_trigInv p k hinv
  refine ⟨hclear, ?_⟩
  rcases hc : p.coroutine with _ | s
  · have hrun : run ev stepFn fuel p sim k = ⟨RunResult.noRerun, p, sim, k⟩ := by
      rw [run, hc]
    rw [hrun]
    exact ⟨hinv, by intro h; cases h⟩
  · have hrun : run ev stepFn fuel p sim k =
        runLoop ev stepFn fuel s none none (p.clear_triggers k).1 sim
          (p.clear_triggers k).2 := by
      rw [run, hc]
    rw [hrun]
    have hshape := runLoop_trigShape ev stepFn fuel s none none
      (p.clear_triggers k).1 sim (p.clear_triggers k).2 hclear.1 hclear.2
    rcases hshape with ⟨h1, h2⟩ | ⟨hres, cd, h1, h2⟩
    · exact ⟨trigInv_of_empty _ _ h1 h2, fun _ => Or.inl ⟨h1, h2⟩⟩
    · exact ⟨trigInv_of_tick _ _ cd h1 h2,
        fun _ => Or.inr ⟨hres, cd, h1, h2⟩⟩

/-- One iteration that resumes normally and receives a yielded command. -/
theorem runLoop_send_yield {σ Sim : Type} (ev : Evaluator Sim)
    (stepFn : σ → ResumeArg → StepResult σ) (fuel : Nat) (s : σ)
    (r0 : Option Val) (cmd0 : Option Command) (s' : σ) (p : Proc σ)
    (sim : Sim) (k : KernelState)
    (hy : stepFn s (ResumeArg.send r0) = StepResult.yielded cmd0 s') :
    runLoop ev stepFn (fuel + 1) s r0 none p sim k =
      match interp ev (subst_default p cmd0) p sim k with
      | InterpOut.ret rr p' sim' k' =>
        ⟨if rr then RunResult.rerun else RunResult.noRerun,
         { p' with coroutine := some s' }, sim', k'⟩
      | InterpOut.cont r' p' sim' k' =>
        runLoop ev stepFn fuel s' r' none p' sim' k'
      | InterpOut.err e' p' sim' k' =>
        runLoop ev stepFn fuel s' none (some e') p' sim' k' := by
  simp only [runLoop_succ, hy]

/-- One iteration that resumes normally and sees the computation finish. -/
theorem runLoop_send_stop {σ Sim : Type} (ev : Evaluator Sim)
    (stepFn : σ → ResumeArg → StepResult σ) (fuel : Nat) (s : σ)
    (r0 : Option Val) (p : Proc σ) (sim : Sim) (k : KernelState)
    (hy : stepFn s (ResumeArg.send r0) = StepResult.stopIteration) :
    runLoop ev stepFn (fuel + 1) s r0 none p sim k =
      ⟨RunResult.noRerun, { p with passive := true, coroutine := none },
       sim, k⟩ := by
  simp only [runLoop_succ, hy]

/-- One iteration that throws a pending captured exception into the
computation, which does not handle it: the new exception propagates out of
`run` as a fatal result. -/
theorem runLoop_throw_raised {σ Sim : Type} (ev : Evaluator Sim)
    (stepFn : σ → ResumeArg → StepResult σ) (fuel : Nat) (s : σ)
    (r0 : Option Val) (e e' : Exn) (p : Proc σ) (sim : Sim)
    (k : KernelState)
    (hy : stepFn s (ResumeArg.throw e) = StepResult.raised e') :
    runLoop ev stepFn (fuel + 1) s r0 (some e) p sim k =
      ⟨RunResult.fatal e', { p with coroutine := some s }, sim, k⟩ := by
  simp only [runLoop_succ, hy]

/-- C2: interpreting `Assign(lhs, rhs)` evaluates `rhs` and commits it to
`lhs` through the evaluator; `run()` then returns "rerun needed" exactly
when the process is a testbench — the assignment is already committed
(`sim'`) in the state the return carries — while a non-testbench process
continues the loop within the same `run()` call, with the assignment
committed in the state the loop continues from. -/
theorem C2_assign_rerun_iff_testbench {σ Sim : Type} (ev : Evaluator Sim)
    (stepFn : σ → ResumeArg → StepResult σ) (fuel : Nat) (p : Proc σ)
    (sim sim' : Sim) (k : KernelState) (s s' : σ) (r0 : Option Val)
    (lhs rhs : Expr) (v : Val)
    (hv : ev.eval_value sim rhs = Except.ok v)
    (ha : ev.eval_assign sim lhs v = Except.ok sim')
    (hy : stepFn s (ResumeArg.send r0) =
      StepResult.yielded (some (Command.assign lhs rhs)) s') :
    (interp ev (some (Command.assign lhs rhs)) p sim k =
      if p.testbench then InterpOut.ret true p sim' k
      else InterpOut.cont none p sim' k) ∧
    (p.testbench = true →
      runLoop ev stepFn (fuel + 1) s r0 none p sim k =
        ⟨RunResult.rerun, { p with coroutine := some s' }, sim', k⟩) ∧
    (p.testbench = false →
      runLoop ev stepFn (fuel + 1) s r0 none p sim k =
        runLoop ev stepFn fuel s' none none p sim' k) := by
  have hi : interp ev (some (Command.assign lhs rhs)) p sim k =
      if p.testbench then InterpOut.ret true p sim' k
      else InterpOut.cont none p sim' k := by
    simp [interp, hv, ha]
  refine ⟨hi, ?_, ?_⟩
  · intro htb
    rw [runLoop_send_yield ev stepFn fuel s r0 _ s' p sim k hy]
    simp [subst_default, hi, htb]
  · intro htb
    rw [runLoop_send_yield ev stepFn fuel s r0 _ s' p sim k hy]
    simp [subst_default, hi, htb]

/-- The `Tick` branch at a cleared trigger state: resolution succeeded, so
exactly the clock trigger (expecting 1 on a positive edge, 0 on a negative
edge) and, when the domain has an asynchronous reset signal, the reset
trigger expecting 1 are registered, and the command returns `False`. -/
theorem interp_tick_eq {σ Sim : Type} (ev : Evaluator Sim) (p : Proc σ)
    (sim : Sim) (k : KernelState) (dref : DomainRef) (cd : ClockDomain)
    (hres : resolveDomain p.domains dref = some cd)
    (hw : p.waits_on = []) (hk : k.triggers = []) :
    interp ev (some (Command.tick dref)) p sim k =
      InterpOut.ret false { p with waits_on := tickWaits cd } sim
        { k with triggers := tickTrigList cd } := by
  rcases hrst : cd.rst with _ | rst <;> by_cases ha : cd.async_reset <;>
    · simp only [interp, hres, hrst, ha, Proc.add_trigger,
        KernelState.add_trigger, if_true, if_false]
      simp [tickWaits, tickTrigList, hrst, ha, hw, hk, SignalSet.add]

/-- C3: yielding `Tick(domain)` with a resolvable domain (a concrete domain
object, or a name found in the bindings — `resolveDomain` covers both)
registers a trigger expecting 1 on the clock for a positive edge and 0 for
a negative edge, plus a trigger expecting 1 on the reset signal exactly
when the domain has an asynchronous reset signal (`tickTrigList`), and
`run()` returns "no rerun needed"; an unresolvable name raises the
nonexistent-domain error, which is captured and will be thrown into the
computation on the next iteration instead. -/
theorem C3_tick_registers_triggers {σ Sim : Type} (ev : Evaluator Sim)
    (stepFn : σ → ResumeArg → StepResult σ) (fuel : Nat) (p : Proc σ)
    (sim : Sim) (k : KernelState) (s s' : σ) (r0 : Option Val)
    (dref : DomainRef) (hw : p.waits_on = []) (hk : k.triggers = [])
    (hy : stepFn s (ResumeArg.send r0) =
      StepResult.yielded (some (Command.tick dref)) s') :
    (∀ cd, resolveDomain p.domains dref = some cd →
      interp ev (some (Command.tick dref)) p sim k =
        InterpOut.ret false { p with waits_on := tickWaits cd } sim
          { k with triggers := tickTrigList cd } ∧
      runLoop ev stepFn (fuel + 1) s r0 none p sim k =
        ⟨RunResult.noRerun,
         { p with coroutine := some s', waits_on := tickWaits cd }, sim,
         { k with triggers := tickTrigList cd }⟩) ∧
    (resolveDomain p.domains dref = none →
      interp ev (some (Command.tick dref)) p sim k =
        InterpOut.err domainErr p sim k ∧
      runLoop ev stepFn (fuel + 1) s r0 none p sim k =
        runLoop ev stepFn fuel s' none (some domainErr) p sim k) := by
  constructor
  · intro cd hres
    have hi := interp_tick_eq ev p sim k dref cd hres hw hk
    refine ⟨hi, ?_⟩
    rw [runLoop_send_yield ev stepFn fuel s r0 _ s' p sim k hy]
    simp [subst_default, hi]
  · intro hres
    have hi : interp ev (some (Command.tick dref)) p sim k =
        InterpOut.err domainErr p sim k := by
      simp [interp, hres]
    refine ⟨hi, ?_⟩
    rw [runLoop_send_yield ev stepFn fuel s r0 _ s' p sim k hy]
    simp [subst_default, hi]

/-- C4: an error raised while interpreting a command (`InterpOut.err`, which
covers the usage checks and evaluator failures) is captured, and the next
loop iteration throws it into the computation (`ResumeArg.throw`) instead
of sending a response; if the computation then lets an error escape the
resumption, `run()` ends with that error as a fatal result rather than
swallowing it. -/
theorem C4_error_injection {σ Sim : Type} (ev : Evaluator Sim)
    (stepFn : σ → ResumeArg → StepResult σ) (fuel : Nat) (p p1 : Proc σ)
    (sim sim1 : Sim) (k k1 : KernelState) (s s' : σ) (r0 : Option Val)
    (c : Command) (e e' : Exn)
    (hy : stepFn s (ResumeArg.send r0) =
      StepResult.yielded (some c) s')
    (hi : interp ev (some c) p sim k = InterpOut.err e p1 sim1 k1)
    (hthrow : stepFn s' (ResumeArg.throw e) = StepResult.raised e') :
    (runLoop ev stepFn (fuel + 1) s r0 none p sim k =
      runLoop ev stepFn fuel s' none (some e) p1 sim1 k1) ∧
    (runLoop ev stepFn (fuel + 2) s r0 none p sim k =
      ⟨RunResult.fatal e', { p1 with coroutine := some s' }, sim1, k1⟩) := by
  have hstep1 : ∀ n, runLoop ev stepFn (n + 1) s r0 none p sim k =
      runLoop ev stepFn n s' none (some e) p1 sim1 k1 := by
    intro n
    rw [runLoop_send_yield ev stepFn n s r0 _ s' p sim k hy]
    simp [subst_default, hi]
  refine ⟨hstep1 fuel, ?_⟩
  rw [hstep1 (fuel + 1)]
  exact runLoop_throw_raised ev stepFn fuel s' none e e' p1 sim1 k1 hthrow

/-- C5: a testbench process yielding `Settle` hits the usage check: the
"not allowed in testbenches" error is raised and captured, the loop
continues with it pending injection (no normal return for this command),
and the kernel state is untouched — in particular no wait request is made. -/
theorem C5_settle_testbench_error {σ Sim : Type} (ev : Evaluator Sim)
    (stepFn : σ → ResumeArg → StepResult σ) (fuel : Nat) (p : Proc σ)
    (sim : Sim) (k : KernelState) (s s' : σ) (r0 : Option Val)
    (htb : p.testbench = true)
    (hy : stepFn s (ResumeArg.send r0) =
      StepResult.yielded (some Command.settle) s') :
    interp ev (some Command.settle) p sim k = InterpOut.err tbErr p sim k ∧
    runLoop ev stepFn (fuel + 1) s r0 none p sim k =
      runLoop ev stepFn fuel s' none (some tbErr) p sim k := by
  have hi : interp ev (some Command.settle) p sim k =
      InterpOut.err tbErr p sim k := by
    simp [interp, htb]
  refine ⟨hi, ?_⟩
  rw [runLoop_send_yield ev stepFn fuel s r0 _ s' p sim k hy]
  simp [subst_default, hi]

/-- C6: when the computation finishes (StopIteration), the process is
terminated — its computation is cleared and `passive` forced true — and
`run()` returns "no rerun needed"; a later `run()` on a process with no
computation is a no-op that returns "no rerun needed" and leaves process,
simulation and kernel state unchanged. -/
theorem C6_termination {σ Sim : Type} (ev : Evaluator Sim)
    (stepFn : σ → ResumeArg → StepResult σ) (fuel : Nat) (p q : Proc σ)
    (sim simq : Sim) (k kq : KernelState) (s : σ)
    (hc : p.coroutine = some s) (hw : p.waits_on = [])
    (hstop : stepFn s (ResumeArg.send none) = StepResult.stopIteration)
    (hq : q.coroutine = none) :
    run ev stepFn (fuel + 1) p sim k =
      ⟨RunResult.noRerun, { p with passive := true, coroutine := none },
       sim, k⟩ ∧
    run ev stepFn fuel q simq kq = ⟨RunResult.noRerun, q, simq, kq⟩ := by
  constructor
  · rw [run, hc]
    show runLoop ev stepFn (fuel + 1) s none none
        { p with waits_on := [] } sim
        (p.waits_on.foldl (fun k0 s0 => k0.remove_trigger s0) k) = _
    rw [hw]
    rw [runLoop_send_stop ev stepFn fuel s none _ sim _ hstop]
    simp [hw]
  · rw [run, hq]

/-- C7 (amended): yielding `Delay(interval)` requests a timed wait of
`int(interval * 1e15)` femtosecond units — truncation toward zero, not
`round` — from the event kernel; `Delay(0.000000000000001)` (whose product
`1e-15 * 1e15` is exactly 1, so truncation and rounding agree) requests
exactly 1 unit; an absent interval requests an indefinite wait (`none`);
`run()` then returns "no rerun needed". -/
theorem C7_delay_truncates {σ Sim : Type} (ev : Evaluator Sim)
    (stepFn : σ → ResumeArg → StepResult σ) (fuel : Nat) (p : Proc σ)
    (sim : Sim) (k : KernelState) (s s' : σ) (r0 : Option Val)
    (i : Option Rat)
    (hy : stepFn s (ResumeArg.send r0) =
      StepResult.yielded (some (Command.delay i)) s') :
    interp ev (some (Command.delay i)) p sim k =
      InterpOut.ret false p sim
        (k.wait_interval (i.map (fun q => pyInt (q * 10 ^ 15)))) ∧
    runLoop ev stepFn (fuel + 1) s r0 none p sim k =
      ⟨RunResult.noRerun, { p with coroutine := some s' }, sim,
       k.wait_interval (i.map (fun q => pyInt (q * 10 ^ 15)))⟩ ∧
    pyInt (mkRat 1 (10 ^ 15) * 10 ^ 15) = 1 ∧
    interp ev (some (Command.delay none)) p sim k =
      InterpOut.ret false p sim (k.wait_interval none) := by
  have h1 : interp ev (some (Command.delay i)) p sim k =
      InterpOut.ret false p sim
        (k.wait_interval (i.map (fun q => pyInt (q * 10 ^ 15)))) := rfl
  refine ⟨h1, ?_, ?_, rfl⟩
  · rw [runLoop_send_yield ev stepFn fuel s r0 _ s' p sim k hy]
    simp [subst_default, h1]
  · have hq : (mkRat 1 (10 ^ 15) : Rat) * 10 ^ 15 = 1 := by
      rw [Rat.mkRat_eq_div]
      push_cast
      norm_num
    rw [hq]
    decide

/-- C7 counterexample: at `interval = 1.5e-15` seconds (the IEEE double
product `1.5e-15 * 1e15` is exactly `1.5`, matching the exact rational
`mkRat 3 (2 * 10^15) * 10^15`), the code's `int()` conversion requests 1
femtosecond unit, while the `round(interval * 1e15)` of the claim is 2 —
so the kernel does not receive the claimed rounded value. -/
theorem C7_round_counterexample :
    interp evDemo (some (Command.delay (some (mkRat 3 (2 * 10 ^ 15)))))
        procDes (0 : Int) kEmpty =
      InterpOut.ret false procDes 0 ⟨[], [some 1]⟩ ∧
    pyRound (mkRat 3 (2 * 10 ^ 15) * 10 ^ 15) = 2 ∧ (1 : Int) ≠ 2 := by
  have hq : (mkRat 3 (2 * 10 ^ 15) : Rat) * 10 ^ 15 = mkRat 3 2 := by
    rw [Rat.mkRat_eq_div, Rat.mkRat_eq_div]
    push_cast
    ring_nf
  refine ⟨?_, ?_, by decide⟩
  · show InterpOut.ret false procDes (0 : Int)
        (kEmpty.wait_interval
          (some (pyInt (mkRat 3 (2 * 10 ^ 15) * 10 ^ 15)))) = _
    rw [hq]
    decide
  · rw [hq]
    decide

/-- C8 (amended): a testbench process yielding `Delay` with an absent
interval is not caught by the testbench legality check (which covers only
`None` and `Settle`): the `Delay` branch runs as usual, the driver
requests an indefinite wait from the event kernel, and `run()` returns
"no rerun needed" — no usage error is raised. -/
theorem C8_delay_none_testbench {σ Sim : Type} (ev : Evaluator Sim)
    (stepFn : σ → ResumeArg → StepResult σ) (fuel : Nat) (p : Proc σ)
    (sim : Sim) (k : KernelState) (s s' : σ) (r0 : Option Val)
    (_htb : p.testbench = true)
    (hy : stepFn s (ResumeArg.send r0) =
      StepResult.yielded (some (Command.delay none)) s') :
    interp ev (some (Command.delay none)) p sim k =
      InterpOut.ret false p sim (k.wait_interval none) ∧
    runLoop ev stepFn (fuel + 1) s r0 none p sim k =
      ⟨RunResult.noRerun, { p with coroutine := some s' }, sim,
       k.wait_interval none⟩ := by
  refine ⟨rfl, ?_⟩
  rw [runLoop_send_yield ev stepFn fuel s r0 _ s' p sim k hy]
  simp [subst_default, interp]

/-- C8 counterexample: a testbench process yielding `Delay(None)` gets a
normal return — the kernel receives the indefinite-wait request and
`run()` returns "no rerun needed" — not the usage-error injection the
claim requires (`interp` produces `ret`, not `err`). -/
theorem C8_testbench_delay_none_counterexample :
    runLoop evDemo stepDelayNone 1 0 none none procTB (0 : Int) kEmpty =
      ⟨RunResult.noRerun, { procTB with coroutine := some 1 }, 0,
       ⟨[], [none]⟩⟩ ∧
    interp evDemo (some (Command.delay none)) procTB (0 : Int) kEmpty =
      InterpOut.ret false procTB 0 ⟨[], [none]⟩ := by
  decide

/-- C9: yielding a value-read command evaluates the expression through the
evaluator against the current state, the result becomes the pending
response, and the loop continues in the same `run()` call (no return); the
continued loop (`runLoop ... s' (some v) none ...`) by definition resumes
the computation with `send (some v)` on its next iteration — the probe
clause exhibits this for a computation that finishes on that resume. -/
theorem C9_read_value {σ Sim : Type} (ev : Evaluator Sim)
    (stepFn : σ → ResumeArg → StepResult σ) (fuel : Nat) (p : Proc σ)
    (sim : Sim) (k : KernelState) (s s' : σ) (r0 : Option Val)
    (e : Expr) (v : Val)
    (hv : ev.eval_value sim e = Except.ok v)
    (hy : stepFn s (ResumeArg.send r0) =
      StepResult.yielded (some (Command.readValue e)) s') :
    interp ev (some (Command.readValue e)) p sim k =
      InterpOut.cont (some v) p sim k ∧
    runLoop ev stepFn (fuel + 1) s r0 none p sim k =
      runLoop ev stepFn fuel s' (some v) none p sim k ∧
    (stepFn s' (ResumeArg.send (some v)) = StepResult.stopIteration →
      runLoop ev stepFn (fuel + 2) s r0 none p sim k =
        ⟨RunResult.noRerun, { p with passive := true, coroutine := none },
         sim, k⟩) := by
  have hi : interp ev (some (Command.readValue e)) p sim k =
      InterpOut.cont (some v) p sim k := by
    simp [interp, hv]
  have hc : ∀ n, runLoop ev stepFn (n + 1) s r0 none p sim k =
      runLoop ev stepFn n s' (some v) none p sim k := by
    intro n
    rw [runLoop_send_yield ev stepFn n s r0 _ s' p sim k hy]
    simp [subst_default, hi]
  refine ⟨hi, hc fuel, ?_⟩
  intro hstop
  rw [hc (fuel + 1)]
  exact runLoop_send_stop ev stepFn fuel s' (some v) p sim k hstop

/-- C10: a testbench process with no default command that yields nothing is
caught by the testbench legality check (which treats an absent command like
`Settle`) before the missing-default check is reached: the injected error
is the "not allowed in testbenches" one, not the "received default command"
one, which is therefore unreachable for testbench processes. -/
theorem C10_testbench_none_error {σ Sim : Type} (ev : Evaluator Sim)
    (stepFn : σ → ResumeArg → StepResult σ) (fuel : Nat) (p : Proc σ)
    (sim : Sim) (k : KernelState) (s s' : σ) (r0 : Option Val)
    (htb : p.testbench = true) (hd : p.default_cmd = none)
    (hy : stepFn s (ResumeArg.send r0) = StepResult.yielded none s') :
    interp ev (subst_default p none) p sim k =
      InterpOut.err tbErr p sim k ∧
    runLoop ev stepFn (fuel + 1) s r0 none p sim k =
      runLoop ev stepFn fuel s' none (some tbErr) p sim k ∧
    tbErr ≠ defaultErr := by
  have hi : interp ev (subst_default p none) p sim k =
      InterpOut.err tbErr p sim k := by
    simp [subst_default, hd, interp, htb]
  refine ⟨hi, ?_, by decide⟩
  rw [runLoop_send_yield ev stepFn fuel s r0 _ s' p sim k hy]
  simp [hi]

theorem C1_trigger_bookkeeping_witness :
    trigInv (run evDemo stepTickN 5 pStale (0 : Int) kStale).proc
      (run evDemo stepTickN 5 pStale (0 : Int) kStale).kernel :=
  (C1_trigger_bookkeeping evDemo stepTickN 5 pStale 0 kStale (by decide)).2.1

theorem C2_assign_rerun_iff_testbench_witness :
    runLoop evDemo stepAssign 1 0 none none procTB (100 : Int) kEmpty =
      ⟨RunResult.rerun, { procTB with coroutine := some 1 }, 212, kEmpty⟩ :=
  (C2_assign_rerun_iff_testbench evDemo stepAssign 0 procTB 100 212 kEmpty
    0 1 none 5 7 107 rfl rfl (by decide)).2.1 rfl

theorem C3_tick_registers_triggers_witness :
    runLoop evDemo stepTickN 1 0 none none pSync (0 : Int) kEmpty =
      ⟨RunResult.noRerun,
       { pSync with coroutine := some 1, waits_on := tickWaits cdDemo },
       0, { kEmpty with triggers := tickTrigList cdDemo }⟩ :=
  ((C3_tick_registers_triggers evDemo stepTickN 0 pSync 0 kEmpty 0 1 none
    (DomainRef.named "sync") rfl rfl (by decide)).1 cdDemo (by decide)).2

theorem C4_error_injection_witness :
    runLoop evDemo stepUnsupported 2 0 none none procTB (0 : Int) kEmpty =
      ⟨RunResult.fatal (Exn.userError 7),
       { procTB with coroutine := some 1 }, 0, kEmpty⟩ :=
  (C4_error_injection evDemo stepUnsupported 0 procTB procTB 0 0 kEmpty
    kEmpty 0 1 none (Command.other 3) unsupportedErr (Exn.userError 7)
    (by decide) (by decide) (by decide)).2

theorem C5_settle_testbench_error_witness :
    runLoop evDemo stepSettle 1 0 none none procTB (0 : Int) kEmpty =
      runLoop evDemo stepSettle 0 1 none (some tbErr) procTB 0 kEmpty :=
  (C5_settle_testbench_error evDemo stepSettle 0 procTB 0 kEmpty 0 1 none
    rfl (by decide)).2

theorem C6_termination_witness :
    run evDemo stepStop 1 procDes (0 : Int) kEmpty =
      ⟨RunResult.noRerun,
       { procDes with passive := true, coroutine := none }, 0, kEmpty⟩ :=
  (C6_termination evDemo stepStop 0 procDes pDead 0 0 kEmpty kEmpty 0
    rfl rfl (by decide) rfl).1

theorem C7_delay_truncates_witness :
    runLoop evDemo stepDelayFs 1 0 none none procDes (0 : Int) kEmpty =
      ⟨RunResult.noRerun, { procDes with coroutine := some 1 }, 0,
       kEmpty.wait_interval
         ((some (mkRat 1 (10 ^ 15))).map (fun q => pyInt (q * 10 ^ 15)))⟩ :=
  (C7_delay_truncates evDemo stepDelayFs 0 procDes 0 kEmpty 0 1 none
    (some (mkRat 1 (10 ^ 15))) rfl).2.1

theorem C8_delay_none_testbench_witness :
    runLoop evDemo stepDelayNone 1 0 none none procTB (0 : Int) kEmpty =
      ⟨RunResult.noRerun, { procTB with coroutine := some 1 }, 0,
       kEmpty.wait_interval none⟩ :=
  (C8_delay_none_testbench evDemo stepDelayNone 0 procTB 0 kEmpty 0 1 none
    rfl (by decide)).2

theorem C9_read_value_witness :
    runLoop evDemo stepRead 2 0 none none procDes (100 : Int) kEmpty =
      ⟨RunResult.noRerun,
       { procDes with passive := true, coroutine := none }, 100, kEmpty⟩ :=
  (C9_read_value evDemo stepRead 0 procDes 100 kEmpty 0 1 none 7 107
    rfl (by decide)).2.2 (by decide)

theorem C10_testbench_none_error_witness :
    runLoop evDemo stepYieldNone 1 0 none none procTB (0 : Int) kEmpty =
      runLoop evDemo stepYieldNone 0 1 none (some tbErr) procTB 0 kEmpty :=
  (C10_testbench_none_error evDemo stepYieldNone 0 procTB 0 kEmpty 0 1
    none rfl rfl (by decide)).2.1
